import Mathlib

set_option maxHeartbeats 1000000

namespace Chat

/-!
Shallow embedding of the chat application's server-side request handlers
(Next.js API routes under `front/app/api`, models under `front/models`).

Conventions of the embedding:
* MongoDB ObjectIds are modelled as `Nat`.
* `Date` values (millisecond timestamps) are modelled as `Nat`.
* JSON body fields are `Option`-typed; a missing field is `none`, and JS
  truthiness of a string field is `s ≠ ""`.
* bcrypt is modelled as an idealized collision-free keyed construction:
  the digest determines the input, so `bcryptCompare p (bcryptHash s q)`
  holds exactly when `p = q`.
* JWTs are modelled symbolically: a token is either `signed secret payload`
  (the output of `jwt.sign`) or an arbitrary `forged` string; `jwt.verify`
  succeeds exactly on tokens signed with the verifying secret and not yet
  expired, and throws (modelled as `Except.error`) otherwise, including
  when the secret environment variable is absent.
* The Mongo store is a triple of lists (users, conversations, messages);
  `findOne` is `List.find?`, `sort` is an explicit comparison sort,
  `limit n` keeps `n` elements except that `limit 0` is unlimited
  (Mongo semantics).
-/

abbrev Id := Nat
abbrev Time := Nat

structure TokenUser where
  id : Id
  username : String
  email : String
deriving DecidableEq, Repr

structure TokenPayload where
  user : TokenUser
  exp : Time
deriving DecidableEq, Repr

inductive Jwt where
  | signed (secret : String) (payload : TokenPayload)
  | forged (raw : String)
deriving DecidableEq, Repr

/-- Idealized bcrypt output: `salt` plus a digest that (in the ideal model)
determines the hashed input. -/
structure BcryptHash where
  salt : Nat
  digest : String
deriving DecidableEq, Repr

def bcryptHash (salt : Nat) (password : String) : BcryptHash :=
  ⟨salt, password⟩

def bcryptCompare (password : String) (h : BcryptHash) : Bool :=
  decide (h.digest = password)

/-- `front/models/User.ts` (`UserSchema`). Emails are stored lowercased
(`lowercase: true` plus the handlers lowercase before writing). -/
structure StoredUser where
  _id : Id
  fullName : String
  email : String
  password : BcryptHash
  createdAt : Time
deriving DecidableEq, Repr

/-- `ConversationSchema` (conversations model): owning `user`, `title`,
`lastMessageAt`, plus the automatic `timestamps: true` pair. -/
structure Conversation where
  _id : Id
  user : Id
  title : String
  lastMessageAt : Time
  createdAt : Time
  updatedAt : Time
deriving DecidableEq, Repr

/-- `MessageSchema` (message model): parent `conversation`, optional
`sender`, `role` (enum "user" | "assistant" | "system"), `content`,
plus the automatic `timestamps: true` pair. -/
structure Message where
  _id : Id
  conversation : Id
  sender : Option Id
  role : String
  content : String
  createdAt : Time
  updatedAt : Time
deriving DecidableEq, Repr

/-- The document store. -/
structure DB where
  users : List StoredUser
  conversations : List Conversation
  messages : List Message
deriving DecidableEq, Repr

/-- Process environment: `JWT_SECRET` (possibly absent) and whether
`NODE_ENV === "production"`. -/
structure Env where
  jwtSecret : Option String
  production : Bool
deriving DecidableEq, Repr

/-- `role` values accepted by the Mongoose enum validator on
`MessageSchema`; `Message.create` with any other role throws a
validation error. -/
def validRole (r : String) : Bool :=
  decide (r = "user" ∨ r = "assistant" ∨ r = "system")

/-- JS truthiness of an optional string field. -/
def truthy : Option String → Bool
  | none => false
  | some s => decide (s ≠ "")

/-- JS `String.prototype.toLowerCase()` (modelled characterwise; the
built-in `String.toLower` is extensionally the same but does not reduce
in the kernel). -/
def jsToLower (s : String) : String := ⟨s.data.map Char.toLower⟩

/-- JS `String.prototype.trim()`: strip leading and trailing whitespace. -/
def jsTrim (s : String) : String :=
  ⟨((s.data.dropWhile Char.isWhitespace).reverse.dropWhile Char.isWhitespace).reverse⟩

-- ===============================
-- Comparison sorts (model of Mongo `sort`)
-- ===============================

def insertDescBy (key : α → Nat) (x : α) : List α → List α
  | [] => [x]
  | y :: ys => if key x ≤ key y then y :: insertDescBy key x ys else x :: y :: ys

def sortDescBy (key : α → Nat) : List α → List α
  | [] => []
  | x :: xs => insertDescBy key x (sortDescBy key xs)

def insertAscBy (key : α → Nat) (x : α) : List α → List α
  | [] => [x]
  | y :: ys => if key y ≤ key x then y :: insertAscBy key x ys else x :: y :: ys

def sortAscBy (key : α → Nat) : List α → List α
  | [] => []
  | x :: xs => insertAscBy key x (sortAscBy key xs)

/-- Mongoose `cursor.limit n`: `limit 0` means no limit. -/
def mongooseLimit (n : Nat) (xs : List α) : List α :=
  if n = 0 then xs else xs.take n

-- ===============================
-- lib/getUserFromToken.ts
-- ===============================

/-- `jwt.verify(token, secret)`: throws when the secret is absent
("secretOrPrivateKey must have a value"), when the signature does not
match the verifying secret, or when the token is expired. -/
def jwtVerifyEx (secretEnv : Option String) (tok : Jwt) (now : Time) :
    Except String TokenUser :=
  match secretEnv with
  | none => Except.error "secretOrPrivateKey must have a value"
  | some secret =>
    match tok with
    | Jwt.forged _ => Except.error "invalid token"
    | Jwt.signed s p =>
      if s = secret then
        if now < p.exp then Except.ok p.user else Except.error "jwt expired"
      else Except.error "invalid signature"

/-- `getUserFromToken` (lib/getUserFromToken.ts): reads the `token`
cookie; returns `null` when it is missing, and wraps `jwt.verify` in a
`try/catch` that turns every exception into `null`. -/
def getUserFromToken (secretEnv : Option String) (cookie : Option Jwt)
    (now : Time) : Option TokenUser :=
  match cookie with
  | none => none
  | some tok =>
    match jwtVerifyEx secretEnv tok now with
    | Except.ok u => some u
    | Except.error _ => none

-- ===============================
-- Cookies
-- ===============================

structure CookieOptions where
  httpOnly : Bool
  secure : Bool
  sameSite : Option String
  maxAge : Option Nat
  path : Option String
deriving DecidableEq, Repr

structure SetCookie where
  name : String
  value : Jwt
  options : CookieOptions
deriving DecidableEq, Repr

/-- Cookie options set by `app/api/auth/signin/route.ts` step 9. -/
def signinCookieOptions (production : Bool) : CookieOptions :=
  { httpOnly := true, secure := production, sameSite := some "lax"
    maxAge := some (60 * 60 * 24), path := some "/" }

/-- Cookie options set by `app/api/users/route.ts` (sign-up); note the
source passes no `sameSite` entry. -/
def signupCookieOptions (production : Bool) : CookieOptions :=
  { httpOnly := true, secure := production, sameSite := none
    maxAge := some (60 * 60 * 24), path := some "/" }

-- ===============================
-- app/api/auth/signin/route.ts
-- ===============================

structure SigninReq where
  email : Option String
  password : Option String
deriving DecidableEq, Repr

structure UserSummary where
  id : Id
  username : String
  email : String
deriving DecidableEq, Repr

structure SigninRes where
  status : Nat
  message : String
  user : Option UserSummary
  cookie : Option SetCookie
deriving DecidableEq, Repr

/-- `user.fullName || user.username || "User"` (the schema has no
`username` field, so that link of the chain is always undefined). -/
def displayName (u : StoredUser) : String :=
  if u.fullName = "" then "User" else u.fullName

/-- `POST /api/auth/signin` (app/api/auth/signin/route.ts). -/
def signinPOST (env : Env) (db : DB) (req : SigninReq) (now : Time) : SigninRes :=
  let email := jsToLower (jsTrim (req.email.getD ""))
  let password := req.password.getD ""
  if email = "" ∨ password = "" then
    ⟨400, "Email and password are required", none, none⟩
  else
    match db.users.find? (fun u => decide (u.email = email)) with
    | none => ⟨401, "Invalid credentials", none, none⟩
    | some user =>
      if bcryptCompare password user.password then
        match env.jwtSecret with
        | none =>
          -- `throw new Error("JWT_SECRET is not defined ...")`, caught by
          -- the handler's catch-all and turned into a 500 response.
          ⟨500, "JWT_SECRET is not defined in environment variables.", none, none⟩
        | some secret =>
          let payload : TokenPayload :=
            ⟨⟨user._id, displayName user, user.email⟩, now + 86400000⟩
          ⟨200, "Sign-in successful",
            some ⟨user._id, displayName user, user.email⟩,
            some ⟨"token", Jwt.signed secret payload,
                  signinCookieOptions env.production⟩⟩
      else ⟨401, "Invalid credentials", none, none⟩

-- ===============================
-- app/api/auth/route.ts (legacy login handler)
-- ===============================

/-- `POST /api/auth` (app/api/auth/route.ts): the older login handler,
returning status and body message. -/
def authPOST (db : DB) (req : SigninReq) : Nat × String :=
  if truthy req.email = false ∨ truthy req.password = false then
    (400, "Email and password are required")
  else
    let email := req.email.getD ""
    let password := req.password.getD ""
    match db.users.find? (fun u => decide (u.email = jsToLower email)) with
    | none => (404, "User not found")
    | some user =>
      if bcryptCompare password user.password then (200, "Login successful")
      else (401, "Invalid password")

-- ===============================
-- app/api/users/route.ts (sign-up)
-- ===============================

structure SignupReq where
  fullName : Option String
  email : Option String
  password : Option String
deriving DecidableEq, Repr

structure SignupRes where
  status : Nat
  message : String
  db : DB
  user : Option UserSummary
  cookie : Option SetCookie
deriving DecidableEq, Repr

/-- `/\S+@\S+\.\S+/.test(email)`: the (unanchored) regex matches iff the
string contains a contiguous run of non-whitespace characters of shape
`\S+ '@' \S+ '.' \S+`; equivalently there are positions `i < j` holding
'@' and '.' with at least one character strictly between them and with
every character from `i - 1` through `j + 1` non-whitespace. -/
def emailRegexTest (s : String) : Bool :=
  let cs := s.data
  let n := cs.length
  (List.range n).any (fun i =>
    (List.range n).any (fun j =>
      decide (1 ≤ i) && decide (i + 2 ≤ j) && decide (j + 1 < n) &&
      decide (cs.getD i ' ' = '@') && decide (cs.getD j ' ' = '.') &&
      (List.range (j + 2)).all (fun k =>
        decide (k < i - 1) || !(cs.getD k ' ').isWhitespace)))

/-- `POST /api/users` (app/api/users/route.ts): sign-up. `newId` is the
ObjectId Mongo assigns to the created user, `salt` the generated bcrypt
salt. -/
def signupPOST (env : Env) (db : DB) (req : SignupReq) (now : Time)
    (newId : Id) (salt : Nat) : SignupRes :=
  if truthy req.fullName = false ∨ truthy req.email = false ∨
      truthy req.password = false then
    ⟨400, "All fields are required", db, none, none⟩
  else
    let fullName := req.fullName.getD ""
    let email := req.email.getD ""
    let password := req.password.getD ""
    if emailRegexTest email = false then
      ⟨400, "Invalid email format", db, none, none⟩
    else if password.length < 8 then
      ⟨400, "Password must be at least 8 characters long", db, none, none⟩
    else
      match db.users.find? (fun u => decide (u.email = jsToLower email)) with
      | some _ => ⟨409, "User with this email already exists", db, none, none⟩
      | none =>
        let newUser : StoredUser :=
          ⟨newId, fullName, jsToLower email, bcryptHash salt password, now⟩
        let db' : DB := { db with users := db.users ++ [newUser] }
        match env.jwtSecret with
        | none =>
          -- `jwt.sign(..., undefined)` throws after `User.create` has
          -- already persisted the user; the catch-all returns 500.
          ⟨500, "Internal server error", db', none, none⟩
        | some secret =>
          let payload : TokenPayload :=
            ⟨⟨newId, fullName, jsToLower email⟩, now + 86400000⟩
          ⟨201, "User created successfully", db',
            some ⟨newId, fullName, jsToLower email⟩,
            some ⟨"token", Jwt.signed secret payload,
                  signupCookieOptions env.production⟩⟩

-- ===============================
-- app/api/messages/route.ts
-- ===============================

structure MsgPostReq where
  cookie : Option Jwt
  conversationId : Option Id
  role : Option String
  content : Option String
deriving DecidableEq, Repr

structure MsgPostRes where
  status : Nat
  db : DB
  created : Option Message
deriving DecidableEq, Repr

/-- The ownership filter used by both messages handlers:
`Conversation.findOne({ _id: conversationId, user: caller.id })`. -/
def findOwnedConversation (db : DB) (cid : Id) (uid : Id) : Option Conversation :=
  db.conversations.find? (fun c => decide (c._id = cid ∧ c.user = uid))

/-- `POST /api/messages` (app/api/messages/route.ts). `newId` is the
ObjectId assigned to the created message document; `now` is both the
message creation time and the refreshed `lastMessageAt` (the two `Date`
reads happen within the same request). -/
def messagesPOST (env : Env) (db : DB) (req : MsgPostReq) (now : Time)
    (newId : Id) : MsgPostRes :=
  match getUserFromToken env.jwtSecret req.cookie now with
  | none => ⟨401, db, none⟩
  | some user =>
    match req.conversationId, req.role, req.content with
    | some cid, some role, some content =>
      if role = "" ∨ content = "" then ⟨400, db, none⟩
      else
        match findOwnedConversation db cid user.id with
        | none => ⟨403, db, none⟩
        | some convo =>
          if validRole role then
            let msg : Message :=
              ⟨newId, cid, if role = "user" then some user.id else none,
                role, content, now, now⟩
            ⟨200,
              { db with
                messages := db.messages ++ [msg]
                conversations := db.conversations.map (fun c =>
                  if c._id = convo._id then
                    { c with lastMessageAt := now, updatedAt := now }
                  else c) },
              some msg⟩
          else
            -- Mongoose enum validation makes `Message.create` throw;
            -- the catch-all returns 500 and `convo.save()` never runs.
            ⟨500, db, none⟩
    | _, _, _ => ⟨400, db, none⟩

structure MsgGetReq where
  cookie : Option Jwt
  conversationId : Option Id
  limit : Option Nat
  cursor : Option Time
deriving DecidableEq, Repr

structure MsgGetRes where
  status : Nat
  data : List Message
  nextCursor : Option Time
deriving DecidableEq, Repr

/-- The messages of one conversation (`{conversation: cid}` part of the
GET query). -/
def convMsgs (db : DB) (cid : Id) : List Message :=
  db.messages.filter (fun m => decide (m.conversation = cid))

/-- The `$lt` cursor filter: with no cursor every message of the
conversation qualifies; with cursor `t` only `createdAt < t`. -/
def cursorOk (cursor : Option Time) (m : Message) : Bool :=
  match cursor with
  | none => true
  | some t => decide (m.createdAt < t)

/-- `GET /api/messages` (app/api/messages/route.ts): ownership check,
then `find(query).sort({createdAt: -1}).limit(limit)`, reversed to
oldest-first, with `nextCursor` the `createdAt` of the first element of
the reversed page (its oldest message) when the page is non-empty. -/
def messagesGET (env : Env) (db : DB) (req : MsgGetReq) (now : Time) : MsgGetRes :=
  match getUserFromToken env.jwtSecret req.cookie now with
  | none => ⟨401, [], none⟩
  | some user =>
    match req.conversationId with
    | none => ⟨400, [], none⟩
    | some cid =>
      match findOwnedConversation db cid user.id with
      | none => ⟨403, [], none⟩
      | some _ =>
        let q := db.messages.filter (fun m =>
          decide (m.conversation = cid) && cursorOk req.cursor m)
        let sorted := sortDescBy Message.createdAt q
        let page := mongooseLimit (req.limit.getD 50) sorted
        let data := page.reverse
        ⟨200, data, (data.head?).map Message.createdAt⟩

/-- The client-side paging loop over `GET /api/messages`: start with no
cursor, re-issue the request with the returned `nextCursor` until a page
comes back empty (`nextCursor = null`), and accumulate pages
oldest-to-newest (each later-fetched page is older, so it is prepended).
`fuel` bounds the number of round-trips. -/
def pageChain (env : Env) (db : DB) (cookie : Option Jwt) (cid : Id)
    (limit : Nat) (now : Time) : Nat → Option Time → List Message
  | 0, _ => []
  | fuel + 1, cursor =>
    let r := messagesGET env db ⟨cookie, some cid, some limit, cursor⟩ now
    match r.nextCursor with
    | none => []
    | some c => pageChain env db cookie cid limit now fuel (some c) ++ r.data

-- ===============================
-- app/api/conversations/route.ts
-- ===============================

structure ConvPostReq where
  cookie : Option Jwt
  firstMessage : Option String
deriving DecidableEq, Repr

structure ConvPostRes where
  status : Nat
  db : DB
  created : Option Conversation
deriving DecidableEq, Repr

/-- `generateTitle` (app/api/conversations/route.ts). -/
def generateTitle (text : String) : String :=
  if text = "" then "New Conversation"
  else
    let cleaned := jsTrim text
    if cleaned.length ≤ 30 then cleaned
    else cleaned.take 30 ++ "..."

/-- `POST /api/conversations` (app/api/conversations/route.ts): creates a
conversation owned by the caller, titled from `firstMessage`. -/
def conversationsPOST (env : Env) (db : DB) (req : ConvPostReq) (now : Time)
    (newId : Id) : ConvPostRes :=
  match getUserFromToken env.jwtSecret req.cookie now with
  | none => ⟨401, db, none⟩
  | some user =>
    let title := generateTitle (req.firstMessage.getD "")
    let convo : Conversation := ⟨newId, user.id, title, now, now, now⟩
    ⟨200, { db with conversations := db.conversations ++ [convo] }, some convo⟩

structure ConvGetRes where
  status : Nat
  data : List Conversation
deriving DecidableEq, Repr

/-- `GET /api/conversations`: the caller's conversations sorted by
`updatedAt` descending. -/
def conversationsGET (env : Env) (db : DB) (cookie : Option Jwt)
    (now : Time) : ConvGetRes :=
  match getUserFromToken env.jwtSecret cookie now with
  | none => ⟨401, []⟩
  | some user =>
    ⟨200, sortDescBy Conversation.updatedAt
      (db.conversations.filter (fun c => decide (c.user = user.id)))⟩

-- ===============================
-- app/api/dashboard/route.ts
-- ===============================

/-- `$dayOfWeek` of a UTC millisecond timestamp: 1 = Sunday .. 7 =
Saturday (epoch day 0, 1 Jan 1970, was a Thursday = 5). -/
def mongoDayOfWeek (t : Time) : Nat :=
  (t / 86400000 + 4) % 7 + 1

/-- `new Date(Date.now() - 7 * 24 * 60 * 60 * 1000)`. -/
def wkWindowStart (now : Time) : Time :=
  now - 7 * 24 * 60 * 60 * 1000

/-- Number of the caller's conversations created in the trailing 7 days
whose `$dayOfWeek` is `d` (the `$match` + one `$group` bucket of the
weekly-activity pipeline). -/
def wkMatches (db : DB) (uid : Id) (now : Time) (d : Nat) : Nat :=
  (db.conversations.filter (fun c =>
    decide (wkWindowStart now ≤ c.createdAt) && decide (c.user = uid) &&
    decide (mongoDayOfWeek c.createdAt = d))).length

/-- The aggregation result `weeklyDataRaw`: one `{_id: day, count}` per
day-of-week that actually occurs (Mongo's `$group` emits no bucket for a
day with no documents), sorted by `_id` ascending. -/
def weeklyDataRaw (db : DB) (uid : Id) (now : Time) : List (Nat × Nat) :=
  ((List.range 7).map (fun k => (k + 1, wkMatches db uid now (k + 1)))).filter
    (fun p => decide (p.2 ≠ 0))

/-- The `mongoToIndex` remap table (2 → 0 = Mon, ..., 1 → 6 = Sun);
lookup of any other key is `undefined`. -/
def mongoToIndex : Nat → Option Nat
  | 2 => some 0
  | 3 => some 1
  | 4 => some 2
  | 5 => some 3
  | 6 => some 4
  | 7 => some 5
  | 1 => some 6
  | _ => none

structure DayBucket where
  day : String
  value : Nat
deriving DecidableEq, Repr

/-- The pre-zeroed Monday→Sunday output array. -/
def initOutput : List DayBucket :=
  [⟨"Mon", 0⟩, ⟨"Tue", 0⟩, ⟨"Wed", 0⟩, ⟨"Thu", 0⟩, ⟨"Fri", 0⟩,
   ⟨"Sat", 0⟩, ⟨"Sun", 0⟩]

/-- `output[index].value = item.count` for one aggregation item. -/
def applyRawItem (out : List DayBucket) (item : Nat × Nat) : List DayBucket :=
  match mongoToIndex item.1 with
  | none => out
  | some i => out.set i ⟨(out.getD i ⟨"", 0⟩).day, item.2⟩

/-- The final `weeklyData` array: fold the aggregation rows into the
pre-zeroed Monday→Sunday array. -/
def weeklyData (db : DB) (uid : Id) (now : Time) : List DayBucket :=
  (weeklyDataRaw db uid now).foldl applyRawItem initOutput

/-- ObjectIds of the caller's conversations
(`Conversation.find({user: userId}).select("_id")`). -/
def userConversationIds (db : DB) (uid : Id) : List Id :=
  (db.conversations.filter (fun c => decide (c.user = uid))).map Conversation._id

/-- Messages of the caller's conversations sorted oldest-first
(`Message.find({conversation: {$in: conversationIds}}).sort({createdAt: 1})`). -/
def dashboardMessagesSorted (db : DB) (uid : Id) : List Message :=
  sortAscBy Message.createdAt
    (db.messages.filter (fun m => (userConversationIds db uid).contains m.conversation))

/-- Sum of consecutive `createdAt` differences, as JS computes it
(`new Date(messages[i]).getTime() - new Date(messages[i-1]).getTime()`). -/
def consecDiffSum : List Message → Int
  | [] => 0
  | [_] => 0
  | a :: b :: rest =>
    ((b.createdAt : Int) - (a.createdAt : Int)) + consecDiffSum (b :: rest)

/-- `Math.round`: nearest integer, halves toward positive infinity. -/
def jsRound (q : ℚ) : Int :=
  Int.floor (q + 1 / 2)

/-- The dashboard's `avgResponseTime`:
`Math.round(total / (messages.length - 1) / 60000)` when more than one
message exists, else 0. -/
def dashboardAvgResponseTime (db : DB) (uid : Id) : Int :=
  let msgs := dashboardMessagesSorted db uid
  if 1 < msgs.length then
    jsRound (((consecDiffSum msgs : ℚ) / ((msgs.length : ℚ) - 1)) / 60000)
  else 0

structure DashboardRes where
  status : Nat
  totalConversations : Nat
  totalMessages : Nat
  avgResponseTime : Int
  weeklyData : List DayBucket
  recentChats : List Conversation
deriving DecidableEq, Repr

/-- `GET /api/dashboard` (app/api/dashboard/route.ts). -/
def dashboardGET (env : Env) (db : DB) (cookie : Option Jwt)
    (now : Time) : DashboardRes :=
  match getUserFromToken env.jwtSecret cookie now with
  | none => ⟨401, 0, 0, 0, [], []⟩
  | some user =>
    ⟨200,
      (db.conversations.filter (fun c => decide (c.user = user.id))).length,
      (db.messages.filter (fun m =>
        (userConversationIds db user.id).contains m.conversation)).length,
      dashboardAvgResponseTime db user.id,
      weeklyData db user.id now,
      mongooseLimit 5 (sortDescBy Conversation.lastMessageAt
        (db.conversations.filter (fun c => decide (c.user = user.id))))⟩

-- ===============================
-- Concrete fixtures (used by witnesses and counterexamples)
-- ===============================

def sampleUserRec : StoredUser := ⟨1, "Ann", "ann@x.com", bcryptHash 10 "password1", 0⟩

def sampleConv : Conversation := ⟨10, 1, "Chat", 0, 0, 0⟩

def sampleMsg (i : Id) (t : Time) : Message := ⟨i, 10, some 1, "user", "hi", t, t⟩

def sampleToken : Jwt := Jwt.signed "secret" ⟨⟨1, "Ann", "ann@x.com"⟩, 1000000⟩

def sampleEnv : Env := ⟨some "secret", false⟩

def sampleDB : DB := ⟨[sampleUserRec], [sampleConv], [sampleMsg 100 1000, sampleMsg 101 2000]⟩

/-- Like `sampleDB` but with two messages sharing one `createdAt`. -/
def sampleDBdup : DB := ⟨[sampleUserRec], [sampleConv], [sampleMsg 100 1000, sampleMsg 101 1000]⟩

end Chat

namespace Chat

-- ===============================
-- Library of facts about the comparison sorts
-- ===============================

theorem perm_insertDescBy (key : α → Nat) (x : α) (l : List α) :
    List.Perm (insertDescBy key x l) (x :: l) := by
  induction l with
  | nil => exact List.Perm.refl _
  | cons y ys ih =>
    rw [insertDescBy]
    by_cases h : key x ≤ key y
    · rw [if_pos h]
      exact List.Perm.trans (List.Perm.cons y ih) (List.Perm.swap x y ys)
    · rw [if_neg h]

theorem perm_sortDescBy (key : α → Nat) (l : List α) :
    List.Perm (sortDescBy key l) l := by
  induction l with
  | nil => exact List.Perm.refl _
  | cons x xs ih =>
    exact List.Perm.trans (perm_insertDescBy key x (sortDescBy key xs))
      (List.Perm.cons x ih)

theorem pairwise_insertDescBy (key : α → Nat) (x : α) (l : List α)
    (h : l.Pairwise (fun a b => key b ≤ key a)) :
    (insertDescBy key x l).Pairwise (fun a b => key b ≤ key a) := by
  induction l with
  | nil => simp [insertDescBy]
  | cons y ys ih =>
    rw [List.pairwise_cons] at h
    rw [insertDescBy]
    by_cases hxy : key x ≤ key y
    · rw [if_pos hxy]
      rw [List.pairwise_cons]
      refine ⟨?_, ih h.2⟩
      intro z hz
      rcases List.mem_cons.mp ((perm_insertDescBy key x ys).mem_iff.mp hz) with hz1 | hz1
      · subst hz1; exact hxy
      · exact h.1 z hz1
    · rw [if_neg hxy]
      rw [List.pairwise_cons]
      refine ⟨?_, List.pairwise_cons.mpr h⟩
      intro z hz
      rcases List.mem_cons.mp hz with hz' | hz'
      · subst hz'; exact Nat.le_of_lt (Nat.lt_of_not_le hxy)
      · exact Nat.le_trans (h.1 z hz') (Nat.le_of_lt (Nat.lt_of_not_le hxy))

theorem pairwise_sortDescBy (key : α → Nat) (l : List α) :
    (sortDescBy key l).Pairwise (fun a b => key b ≤ key a) := by
  induction l with
  | nil => simp [sortDescBy]
  | cons x xs ih => exact pairwise_insertDescBy key x (sortDescBy key xs) ih

theorem perm_insertAscBy (key : α → Nat) (x : α) (l : List α) :
    List.Perm (insertAscBy key x l) (x :: l) := by
  induction l with
  | nil => exact List.Perm.refl _
  | cons y ys ih =>
    rw [insertAscBy]
    by_cases h : key y ≤ key x
    · rw [if_pos h]
      exact List.Perm.trans (List.Perm.cons y ih) (List.Perm.swap x y ys)
    · rw [if_neg h]

theorem perm_sortAscBy (key : α → Nat) (l : List α) :
    List.Perm (sortAscBy key l) l := by
  induction l with
  | nil => exact List.Perm.refl _
  | cons x xs ih =>
    exact List.Perm.trans (perm_insertAscBy key x (sortAscBy key xs))
      (List.Perm.cons x ih)

theorem pairwise_insertAscBy (key : α → Nat) (x : α) (l : List α)
    (h : l.Pairwise (fun a b => key a ≤ key b)) :
    (insertAscBy key x l).Pairwise (fun a b => key a ≤ key b) := by
  induction l with
  | nil => simp [insertAscBy]
  | cons y ys ih =>
    rw [List.pairwise_cons] at h
    rw [insertAscBy]
    by_cases hxy : key y ≤ key x
    · rw [if_pos hxy]
      rw [List.pairwise_cons]
      refine ⟨?_, ih h.2⟩
      intro z hz
      rcases List.mem_cons.mp ((perm_insertAscBy key x ys).mem_iff.mp hz) with hz1 | hz1
      · subst hz1; exact hxy
      · exact h.1 z hz1
    · rw [if_neg hxy]
      rw [List.pairwise_cons]
      refine ⟨?_, List.pairwise_cons.mpr h⟩
      intro z hz
      rcases List.mem_cons.mp hz with hz' | hz'
      · subst hz'; exact Nat.le_of_lt (Nat.lt_of_not_le hxy)
      · exact Nat.le_trans (Nat.le_of_lt (Nat.lt_of_not_le hxy)) (h.1 z hz')

theorem pairwise_sortAscBy (key : α → Nat) (l : List α) :
    (sortAscBy key l).Pairwise (fun a b => key a ≤ key b) := by
  induction l with
  | nil => simp [sortAscBy]
  | cons x xs ih => exact pairwise_insertAscBy key x (sortAscBy key xs) ih

-- ===============================
-- C2: sign-in failure indistinguishability
-- ===============================

/-- C2 counterexample: the claim quantifies over every sign-in attempt,
including the legacy `POST /api/auth` login handler; there an unknown
email yields 404 "User not found" while a wrong password yields 401
"Invalid password" — different statuses and different messages, so the
two failure causes are distinguishable. -/
theorem C2_counterexample :
    authPOST ⟨[sampleUserRec], [], []⟩ ⟨some "bob@x.com", some "password1"⟩ =
      (404, "User not found") ∧
    authPOST ⟨[sampleUserRec], [], []⟩ ⟨some "ann@x.com", some "wrong"⟩ =
      (401, "Invalid password") ∧
    (404 : Nat) ≠ 401 ∧ "User not found" ≠ "Invalid password" := by
  refine ⟨by decide, by decide, by decide, by decide⟩

/-- C2 (amended): for the `POST /api/auth/signin` handler, a sign-in
attempt with an unknown email and one with a known email but wrong
password both produce status 401 with the identical generic body
"Invalid credentials" (enumeration resistance); the legacy `POST
/api/auth` login handler instead distinguishes the two causes,
returning 404 "User not found" for an unknown email and 401 "Invalid
password" for a wrong password. -/
theorem C2_signin_enumeration_resistance (env : Env) (db : DB)
    (req : SigninReq) (now : Time)
    (he : jsToLower (jsTrim (req.email.getD "")) ≠ "")
    (hp : req.password.getD "" ≠ "") :
    (db.users.find? (fun u => decide (u.email = jsToLower (jsTrim (req.email.getD "")))) = none →
      signinPOST env db req now = ⟨401, "Invalid credentials", none, none⟩) ∧
    (∀ u, db.users.find? (fun u => decide (u.email = jsToLower (jsTrim (req.email.getD "")))) = some u →
      bcryptCompare (req.password.getD "") u.password = false →
      signinPOST env db req now = ⟨401, "Invalid credentials", none, none⟩) ∧
    (∀ (db' : DB) (req' : SigninReq), truthy req'.email = true → truthy req'.password = true →
      (db'.users.find? (fun u => decide (u.email = jsToLower (req'.email.getD ""))) = none →
        authPOST db' req' = (404, "User not found")) ∧
      (∀ u, db'.users.find? (fun u => decide (u.email = jsToLower (req'.email.getD ""))) = some u →
        bcryptCompare (req'.password.getD "") u.password = false →
        authPOST db' req' = (401, "Invalid password"))) := by
  refine ⟨?_, ?_, ?_⟩
  · intro hfind
    simp [signinPOST, he, hp, hfind]
  · intro u hfind hcmp
    simp [signinPOST, he, hp, hfind, hcmp]
  · intro db' req' he' hp'
    constructor
    · intro hfind
      simp [authPOST, he', hp', hfind]
    · intro u hfind hcmp
      simp [authPOST, he', hp', hfind, hcmp]

/-- C2 witness: concrete instances of both 401 branches of the amended
theorem. -/
theorem C2_signin_enumeration_resistance_witness :
    signinPOST sampleEnv ⟨[sampleUserRec], [], []⟩
        ⟨some "bob@x.com", some "pw"⟩ 0 =
      ⟨401, "Invalid credentials", none, none⟩ ∧
    signinPOST sampleEnv ⟨[sampleUserRec], [], []⟩
        ⟨some "ann@x.com", some "wrong"⟩ 0 =
      ⟨401, "Invalid credentials", none, none⟩ := by
  constructor
  · exact (C2_signin_enumeration_resistance sampleEnv ⟨[sampleUserRec], [], []⟩
      ⟨some "bob@x.com", some "pw"⟩ 0 (by decide) (by decide)).1 (by decide)
  · exact (C2_signin_enumeration_resistance sampleEnv ⟨[sampleUserRec], [], []⟩
      ⟨some "ann@x.com", some "wrong"⟩ 0 (by decide) (by decide)).2.1
      sampleUserRec (by decide) (by decide)

-- ===============================
-- C6: behavior when the signing secret is absent
-- ===============================

/-- C6 counterexample: with `JWT_SECRET` absent, a request to the
authenticated messages endpoint carrying a signed token cookie is
answered 401 (the `try/catch` in `getUserFromToken` swallows the
`jwt.verify` exception and treats the caller as unauthenticated), not a
fatal 5xx server error, and the store is untouched. -/
theorem C6_counterexample :
    (messagesPOST ⟨none, false⟩ sampleDB
        ⟨some sampleToken, some 10, some "user", some "hello"⟩ 5 200).status = 401 ∧
    (messagesPOST ⟨none, false⟩ sampleDB
        ⟨some sampleToken, some 10, some "user", some "hello"⟩ 5 200).status ≠ 500 ∧
    (messagesPOST ⟨none, false⟩ sampleDB
        ⟨some sampleToken, some 10, some "user", some "hello"⟩ 5 200).db = sampleDB := by
  refine ⟨by decide, by decide, by decide⟩

/-- C6 (amended): when the signing secret is absent, the sign-in handler
fails with a fatal 500 once it reaches token issuance; token
verification however returns null for every request, so authenticated
handlers answer 401 (the request is treated as merely unauthenticated,
not as a fatal error) — in particular no request is ever authenticated,
so the absent secret never becomes an authentication bypass. -/
theorem C6_missing_secret (env : Env) (hsec : env.jwtSecret = none)
    (db : DB) (req : SigninReq) (now : Time) (u : StoredUser)
    (he : jsToLower (jsTrim (req.email.getD "")) ≠ "")
    (hp : req.password.getD "" ≠ "")
    (hfind : db.users.find? (fun v => decide (v.email = jsToLower (jsTrim (req.email.getD "")))) = some u)
    (hcmp : bcryptCompare (req.password.getD "") u.password = true) :
    (signinPOST env db req now).status = 500 ∧
    (signinPOST env db req now).cookie = none ∧
    (∀ (cookie : Option Jwt) (t : Time), getUserFromToken env.jwtSecret cookie t = none) ∧
    (∀ (db' : DB) (preq : MsgPostReq) (pnow : Time) (nid : Id),
      messagesPOST env db' preq pnow nid = ⟨401, db', none⟩) := by
  have hnull : ∀ (cookie : Option Jwt) (t : Time),
      getUserFromToken env.jwtSecret cookie t = none := by
    intro cookie t
    cases cookie with
    | none => rfl
    | some tok => simp [getUserFromToken, jwtVerifyEx, hsec]
  refine ⟨?_, ?_, hnull, ?_⟩
  · simp [signinPOST, he, hp, hfind, hcmp, hsec]
  · simp [signinPOST, he, hp, hfind, hcmp, hsec]
  · intro db' preq pnow nid
    simp [messagesPOST, hnull preq.cookie pnow]

/-- C6 witness: the amended theorem instantiated at a concrete store and
request with valid credentials. -/
theorem C6_missing_secret_witness :
    (signinPOST ⟨none, false⟩ ⟨[sampleUserRec], [], []⟩
        ⟨some "ann@x.com", some "password1"⟩ 0).status = 500 ∧
    (signinPOST ⟨none, false⟩ ⟨[sampleUserRec], [], []⟩
        ⟨some "ann@x.com", some "password1"⟩ 0).cookie = none ∧
    (∀ (cookie : Option Jwt) (t : Time),
      getUserFromToken (Env.jwtSecret ⟨none, false⟩) cookie t = none) ∧
    (∀ (db' : DB) (preq : MsgPostReq) (pnow : Time) (nid : Id),
      messagesPOST ⟨none, false⟩ db' preq pnow nid = ⟨401, db', none⟩) :=
  C6_missing_secret ⟨none, false⟩ rfl ⟨[sampleUserRec], [], []⟩
    ⟨some "ann@x.com", some "password1"⟩ 0 sampleUserRec
    (by decide) (by decide) (by decide) (by decide)

-- ===============================
-- C7: session-cookie attributes
-- ===============================

/-- C7 counterexample: a successful sign-up (status 201) sets the
session cookie without any `sameSite` attribute — the sign-up handler's
cookie options omit `sameSite: "lax"` — refuting the claim that both
success paths set `sameSite=lax`. -/
theorem C7_counterexample :
    (signupPOST sampleEnv ⟨[], [], []⟩
        ⟨some "Ann", some "ann@x.com", some "password1"⟩ 0 1 10).status = 201 ∧
    ((signupPOST sampleEnv ⟨[], [], []⟩
        ⟨some "Ann", some "ann@x.com", some "password1"⟩ 0 1 10).cookie.map
      (fun c => c.options.sameSite)) = some none := by
  refine ⟨by decide, by decide⟩

/-- C7 (amended): on every successful sign-in the cookie set is named
`token`, http-only, secure exactly in production, `sameSite=lax`,
max-age 24 hours, root path, and its value is the signed session token;
on every successful sign-up the cookie has the same name, http-only,
secure-in-production, max-age and path and signed-token value, but its
`sameSite` attribute is left unset. -/
theorem C7_session_cookie (env : Env) (secret : String)
    (hsec : env.jwtSecret = some secret) :
    (∀ (db : DB) (req : SigninReq) (now : Time) (u : StoredUser),
      jsToLower (jsTrim (req.email.getD "")) ≠ "" →
      req.password.getD "" ≠ "" →
      db.users.find? (fun v => decide (v.email = jsToLower (jsTrim (req.email.getD "")))) = some u →
      bcryptCompare (req.password.getD "") u.password = true →
      (signinPOST env db req now).status = 200 ∧
      (signinPOST env db req now).cookie =
        some ⟨"token",
          Jwt.signed secret ⟨⟨u._id, displayName u, u.email⟩, now + 86400000⟩,
          { httpOnly := true, secure := env.production, sameSite := some "lax"
            maxAge := some (60 * 60 * 24), path := some "/" }⟩) ∧
    (∀ (db : DB) (req : SignupReq) (now : Time) (newId : Id) (salt : Nat)
        (fullName email password : String),
      req.fullName = some fullName → req.email = some email →
      req.password = some password →
      fullName ≠ "" → email ≠ "" → password ≠ "" →
      emailRegexTest email = true → ¬ password.length < 8 →
      db.users.find? (fun u => decide (u.email = jsToLower email)) = none →
      (signupPOST env db req now newId salt).status = 201 ∧
      (signupPOST env db req now newId salt).cookie =
        some ⟨"token",
          Jwt.signed secret ⟨⟨newId, fullName, jsToLower email⟩, now + 86400000⟩,
          { httpOnly := true, secure := env.production, sameSite := none
            maxAge := some (60 * 60 * 24), path := some "/" }⟩) := by
  constructor
  · intro db req now u he hp hfind hcmp
    constructor
    · simp [signinPOST, he, hp, hfind, hcmp, hsec]
    · simp [signinPOST, he, hp, hfind, hcmp, hsec, signinCookieOptions]
  · intro db req now newId salt fullName email password hfn hem hpw hfne hene hpne hre hlen hfind
    have ht1 : truthy req.fullName = true := by simp [truthy, hfn, hfne]
    have ht2 : truthy req.email = true := by simp [truthy, hem, hene]
    have ht3 : truthy req.password = true := by simp [truthy, hpw, hpne]
    constructor
    · simp [signupPOST, truthy, hfn, hem, hpw, hfne, hene, hpne, hre, hlen,
        hfind, hsec]
    · simp [signupPOST, truthy, hfn, hem, hpw, hfne, hene, hpne, hre, hlen,
        hfind, hsec, signupCookieOptions]

/-- C7 witness: both branches of the amended cookie theorem at concrete
successful sign-in and sign-up requests. -/
theorem C7_session_cookie_witness :
    ((signinPOST sampleEnv ⟨[sampleUserRec], [], []⟩
        ⟨some "ann@x.com", some "password1"⟩ 0).status = 200 ∧
      (signinPOST sampleEnv ⟨[sampleUserRec], [], []⟩
        ⟨some "ann@x.com", some "password1"⟩ 0).cookie =
        some ⟨"token",
          Jwt.signed "secret"
            ⟨⟨sampleUserRec._id, displayName sampleUserRec, sampleUserRec.email⟩,
              0 + 86400000⟩,
          { httpOnly := true, secure := sampleEnv.production, sameSite := some "lax"
            maxAge := some (60 * 60 * 24), path := some "/" }⟩) ∧
    ((signupPOST sampleEnv ⟨[], [], []⟩
        ⟨some "Ann", some "ann@x.com", some "password1"⟩ 0 1 10).status = 201 ∧
      (signupPOST sampleEnv ⟨[], [], []⟩
        ⟨some "Ann", some "ann@x.com", some "password1"⟩ 0 1 10).cookie =
        some ⟨"token",
          Jwt.signed "secret" ⟨⟨1, "Ann", jsToLower "ann@x.com"⟩, 0 + 86400000⟩,
          { httpOnly := true, secure := sampleEnv.production, sameSite := none
            maxAge := some (60 * 60 * 24), path := some "/" }⟩) :=
  ⟨(C7_session_cookie sampleEnv "secret" rfl).1 ⟨[sampleUserRec], [], []⟩
      ⟨some "ann@x.com", some "password1"⟩ 0 sampleUserRec
      (by decide) (by decide) (by decide) (by decide),
    (C7_session_cookie sampleEnv "secret" rfl).2 ⟨[], [], []⟩
      ⟨some "Ann", some "ann@x.com", some "password1"⟩ 0 1 10
      "Ann" "ann@x.com" "password1" rfl rfl rfl
      (by decide) (by decide) (by decide) (by decide) (by decide) (by decide)⟩

-- ===============================
-- C1: message creation requires conversation ownership
-- ===============================

/-- C1: an authenticated, well-formed `POST /api/messages` whose
`conversationId` matches no conversation owned by the caller (whether it
belongs to another user or does not exist) is answered 403 with the
store untouched; and any message present after a call that was not
present before belongs to a conversation of the store owned by the
authenticated caller — the ownership-filtered lookup must have
matched before any message is created. -/
theorem C1_message_ownership (env : Env) (db : DB) (now : Time) (newId : Id) :
    (∀ (req : MsgPostReq) (user : TokenUser) (cid : Id) (role content : String),
      getUserFromToken env.jwtSecret req.cookie now = some user →
      req.conversationId = some cid → req.role = some role →
      req.content = some content → role ≠ "" → content ≠ "" →
      findOwnedConversation db cid user.id = none →
      messagesPOST env db req now newId = ⟨403, db, none⟩) ∧
    (∀ (req : MsgPostReq) (m : Message),
      m ∈ (messagesPOST env db req now newId).db.messages →
      m ∈ db.messages ∨
      ∃ (user : TokenUser) (c : Conversation),
        getUserFromToken env.jwtSecret req.cookie now = some user ∧
        c ∈ db.conversations ∧ c._id = m.conversation ∧ c.user = user.id) := by
  constructor
  · intro req user cid role content hgu hcid hrole hcontent hrne hcne hfind
    simp [messagesPOST, hgu, hcid, hrole, hcontent, hrne, hcne, hfind]
  · intro req m hm
    rcases hgu : getUserFromToken env.jwtSecret req.cookie now with _ | user
    · left; simpa [messagesPOST, hgu] using hm
    rcases hcid : req.conversationId with _ | cid
    · left; simpa [messagesPOST, hgu, hcid] using hm
    rcases hrole : req.role with _ | role
    · left; simpa [messagesPOST, hgu, hcid, hrole] using hm
    rcases hcontent : req.content with _ | content
    · left; simpa [messagesPOST, hgu, hcid, hrole, hcontent] using hm
    by_cases hempty : role = "" ∨ content = ""
    · left; simpa [messagesPOST, hgu, hcid, hrole, hcontent, hempty] using hm
    rcases hfind : findOwnedConversation db cid user.id with _ | convo
    · left; simpa [messagesPOST, hgu, hcid, hrole, hcontent, hempty, hfind] using hm
    by_cases hval : validRole role = true
    · have hm' : m ∈ db.messages ++
          [(⟨newId, cid, if role = "user" then some user.id else none,
            role, content, now, now⟩ : Message)] := by
        simpa [messagesPOST, hgu, hcid, hrole, hcontent, hempty, hfind, hval]
          using hm
      rcases List.mem_append.mp hm' with h | h
      · exact Or.inl h
      · right
        have hmsg := List.mem_singleton.mp h
        rw [findOwnedConversation] at hfind
        have hmem := List.mem_of_find?_eq_some hfind
        have hpred := List.find?_some hfind
        simp only [decide_eq_true_eq] at hpred
        refine ⟨user, convo, rfl, hmem, ?_, hpred.2⟩
        rw [hmsg]
        exact hpred.1
    · left
      simpa [messagesPOST, hgu, hcid, hrole, hcontent, hempty, hfind, hval]
        using hm

/-- C1 witness: an unauthorized post (the conversation belongs to user
1, the token is held by user 2) is refused with 403 and leaves the store
unchanged. -/
theorem C1_message_ownership_witness :
    messagesPOST sampleEnv sampleDB
        ⟨some (Jwt.signed "secret" ⟨⟨2, "Eve", "eve@x.com"⟩, 1000000⟩),
          some 10, some "user", some "pwned"⟩ 5 300 =
      ⟨403, sampleDB, none⟩ :=
  (C1_message_ownership sampleEnv sampleDB 5 300).1
    ⟨some (Jwt.signed "secret" ⟨⟨2, "Eve", "eve@x.com"⟩, 1000000⟩),
      some 10, some "user", some "pwned"⟩
    ⟨2, "Eve", "eve@x.com"⟩ 10 "user" "pwned"
    (by decide) rfl rfl rfl (by decide) (by decide) (by decide)

-- ===============================
-- C3: invalid tokens verify to null and authenticated handlers answer 401
-- ===============================

/-- C3: token verification never raises — a missing cookie, a forged
token, a token signed under a different secret, and an expired token all
make `getUserFromToken` evaluate to null; and whenever it is null, the
authenticated handlers (message append and page, conversation create and
list, dashboard) answer 401 and leave the store unchanged. -/
theorem C3_invalid_token_null_and_401 (env : Env) (db : DB) (now : Time)
    (newId : Id) :
    (∀ secretEnv : Option String, getUserFromToken secretEnv none now = none) ∧
    (∀ (secretEnv : Option String) (raw : String),
      getUserFromToken secretEnv (some (Jwt.forged raw)) now = none) ∧
    (∀ (secret s : String) (p : TokenPayload), s ≠ secret →
      getUserFromToken (some secret) (some (Jwt.signed s p)) now = none) ∧
    (∀ (secret s : String) (p : TokenPayload), p.exp ≤ now →
      getUserFromToken (some secret) (some (Jwt.signed s p)) now = none) ∧
    (∀ req : MsgPostReq, getUserFromToken env.jwtSecret req.cookie now = none →
      messagesPOST env db req now newId = ⟨401, db, none⟩) ∧
    (∀ req : MsgGetReq, getUserFromToken env.jwtSecret req.cookie now = none →
      messagesGET env db req now = ⟨401, [], none⟩) ∧
    (∀ req : ConvPostReq, getUserFromToken env.jwtSecret req.cookie now = none →
      conversationsPOST env db req now newId = ⟨401, db, none⟩) ∧
    (∀ cookie : Option Jwt, getUserFromToken env.jwtSecret cookie now = none →
      conversationsGET env db cookie now = ⟨401, []⟩ ∧
      (dashboardGET env db cookie now).status = 401) := by
  refine ⟨?_, ?_, ?_, ?_, ?_, ?_, ?_, ?_⟩
  · intro secretEnv; rfl
  · intro secretEnv raw
    cases secretEnv <;> simp [getUserFromToken, jwtVerifyEx]
  · intro secret s p hne
    simp [getUserFromToken, jwtVerifyEx, hne]
  · intro secret s p hexp
    by_cases hs : s = secret
    · simp [getUserFromToken, jwtVerifyEx, hs, Nat.not_lt.mpr hexp]
    · simp [getUserFromToken, jwtVerifyEx, hs]
  · intro req hnull; simp [messagesPOST, hnull]
  · intro req hnull; simp [messagesGET, hnull]
  · intro req hnull; simp [conversationsPOST, hnull]
  · intro cookie hnull
    exact ⟨by simp [conversationsGET, hnull], by simp [dashboardGET, hnull]⟩

/-- C3 witness: the null-verification facts and the 401 responses at a
concrete store, with a forged cookie, an expired token, and a token
signed under a different secret. -/
theorem C3_invalid_token_null_and_401_witness :
    getUserFromToken (some "secret") none 5 = none ∧
    getUserFromToken (some "secret") (some (Jwt.forged "garbage")) 5 = none ∧
    getUserFromToken (some "secret")
      (some (Jwt.signed "other" ⟨⟨1, "Ann", "ann@x.com"⟩, 1000000⟩)) 5 = none ∧
    getUserFromToken (some "secret")
      (some (Jwt.signed "secret" ⟨⟨1, "Ann", "ann@x.com"⟩, 3⟩)) 5 = none ∧
    messagesPOST sampleEnv sampleDB
      ⟨some (Jwt.forged "garbage"), some 10, some "user", some "hi"⟩ 5 300 =
      ⟨401, sampleDB, none⟩ ∧
    messagesGET sampleEnv sampleDB
      ⟨some (Jwt.forged "garbage"), some 10, some 50, none⟩ 5 =
      ⟨401, [], none⟩ ∧
    conversationsPOST sampleEnv sampleDB ⟨some (Jwt.forged "garbage"), some "hi"⟩
      5 300 = ⟨401, sampleDB, none⟩ ∧
    conversationsGET sampleEnv sampleDB (some (Jwt.forged "garbage")) 5 =
      ⟨401, []⟩ ∧
    (dashboardGET sampleEnv sampleDB (some (Jwt.forged "garbage")) 5).status = 401 := by
  have h := C3_invalid_token_null_and_401 sampleEnv sampleDB 5 300
  have hlast := h.2.2.2.2.2.2.2 (some (Jwt.forged "garbage")) (by decide)
  exact ⟨h.1 (some "secret"),
    h.2.1 (some "secret") "garbage",
    h.2.2.1 "secret" "other" ⟨⟨1, "Ann", "ann@x.com"⟩, 1000000⟩ (by decide),
    h.2.2.2.1 "secret" "secret" ⟨⟨1, "Ann", "ann@x.com"⟩, 3⟩ (by decide),
    h.2.2.2.2.1 ⟨some (Jwt.forged "garbage"), some 10, some "user", some "hi"⟩
      (by decide),
    h.2.2.2.2.2.1 ⟨some (Jwt.forged "garbage"), some 10, some 50, none⟩
      (by decide),
    h.2.2.2.2.2.2.1 ⟨some (Jwt.forged "garbage"), some "hi"⟩ (by decide),
    hlast.1, hlast.2⟩

-- ===============================
-- C10: frame effect of a successful message append
-- ===============================

/-- C10: on every successful `POST /api/messages` the store's
conversation list is rewritten only at the parent conversation, which
keeps its `_id`, owner, `title` and `createdAt` and changes only
`lastMessageAt` and the automatic `updatedAt`; every other conversation
is untouched, and the user collection is untouched. -/
theorem C10_conversation_frame (env : Env) (db : DB) (req : MsgPostReq)
    (now : Time) (newId : Id)
    (h200 : (messagesPOST env db req now newId).status = 200) :
    ∃ (user : TokenUser) (cid : Id) (convo : Conversation),
      getUserFromToken env.jwtSecret req.cookie now = some user ∧
      req.conversationId = some cid ∧
      findOwnedConversation db cid user.id = some convo ∧
      (messagesPOST env db req now newId).db.conversations =
        db.conversations.map (fun c =>
          if c._id = convo._id then
            { c with lastMessageAt := now, updatedAt := now }
          else c) ∧
      (∀ c ∈ db.conversations, c._id ≠ convo._id →
        c ∈ (messagesPOST env db req now newId).db.conversations) ∧
      (∀ c ∈ (messagesPOST env db req now newId).db.conversations,
        ∃ c0 ∈ db.conversations, c.title = c0.title ∧ c.user = c0.user ∧
          c._id = c0._id ∧ c.createdAt = c0.createdAt) ∧
      (messagesPOST env db req now newId).db.users = db.users := by
  rcases hgu : getUserFromToken env.jwtSecret req.cookie now with _ | user
  · simp [messagesPOST, hgu] at h200
  rcases hcid : req.conversationId with _ | cid
  · simp [messagesPOST, hgu, hcid] at h200
  rcases hrole : req.role with _ | role
  · simp [messagesPOST, hgu, hcid, hrole] at h200
  rcases hcontent : req.content with _ | content
  · simp [messagesPOST, hgu, hcid, hrole, hcontent] at h200
  by_cases hempty : role = "" ∨ content = ""
  · simp [messagesPOST, hgu, hcid, hrole, hcontent, hempty] at h200
  rcases hfind : findOwnedConversation db cid user.id with _ | convo
  · simp [messagesPOST, hgu, hcid, hrole, hcontent, hempty, hfind] at h200
  by_cases hval : validRole role = true
  · have hconvs : (messagesPOST env db req now newId).db.conversations =
        db.conversations.map (fun c =>
          if c._id = convo._id then
            { c with lastMessageAt := now, updatedAt := now }
          else c) := by
      simp [messagesPOST, hgu, hcid, hrole, hcontent, hempty, hfind, hval]
    have husers : (messagesPOST env db req now newId).db.users = db.users := by
      simp [messagesPOST, hgu, hcid, hrole, hcontent, hempty, hfind, hval]
    refine ⟨user, cid, convo, rfl, rfl, hfind, hconvs, ?_, ?_, husers⟩
    · intro c hc hne
      rw [hconvs]
      have heq : (if c._id = convo._id then
          ({ c with lastMessageAt := now, updatedAt := now } : Conversation)
        else c) = c := if_neg hne
      rw [← heq]
      exact List.mem_map_of_mem _ hc
    · intro c hc
      rw [hconvs] at hc
      rcases List.mem_map.mp hc with ⟨c0, hc0, hfc⟩
      refine ⟨c0, hc0, ?_⟩
      by_cases hid : c0._id = convo._id
      · rw [if_pos hid] at hfc
        rw [← hfc]
        exact ⟨rfl, rfl, rfl, rfl⟩
      · rw [if_neg hid] at hfc
        rw [← hfc]
        exact ⟨rfl, rfl, rfl, rfl⟩
  · simp [messagesPOST, hgu, hcid, hrole, hcontent, hempty, hfind, hval] at h200

/-- C10 witness: the frame theorem applied to a concrete successful
append. -/
theorem C10_conversation_frame_witness :
    ∃ (user : TokenUser) (cid : Id) (convo : Conversation),
      getUserFromToken sampleEnv.jwtSecret (some sampleToken) 3000 = some user ∧
      (⟨some sampleToken, some 10, some "user", some "hello"⟩ :
        MsgPostReq).conversationId = some cid ∧
      findOwnedConversation sampleDB cid user.id = some convo ∧
      (messagesPOST sampleEnv sampleDB
          ⟨some sampleToken, some 10, some "user", some "hello"⟩ 3000 102).db.conversations =
        sampleDB.conversations.map (fun c =>
          if c._id = convo._id then
            { c with lastMessageAt := 3000, updatedAt := 3000 }
          else c) ∧
      (∀ c ∈ sampleDB.conversations, c._id ≠ convo._id →
        c ∈ (messagesPOST sampleEnv sampleDB
          ⟨some sampleToken, some 10, some "user", some "hello"⟩ 3000 102).db.conversations) ∧
      (∀ c ∈ (messagesPOST sampleEnv sampleDB
          ⟨some sampleToken, some 10, some "user", some "hello"⟩ 3000 102).db.conversations,
        ∃ c0 ∈ sampleDB.conversations, c.title = c0.title ∧ c.user = c0.user ∧
          c._id = c0._id ∧ c.createdAt = c0.createdAt) ∧
      (messagesPOST sampleEnv sampleDB
          ⟨some sampleToken, some 10, some "user", some "hello"⟩ 3000 102).db.users =
        sampleDB.users :=
  C10_conversation_frame sampleEnv sampleDB
    ⟨some sampleToken, some 10, some "user", some "hello"⟩ 3000 102 (by decide)

-- ===============================
-- C8: sign-up validation chain
-- ===============================

/-- C8: sign-up answers 400 without creating a user when a field is
missing/empty, when the email fails the basic pattern, or when the
password is shorter than 8 characters; 409 without creating a user when
the lowercased email already exists; and otherwise creates exactly one
user carrying the lowercased email and the salted hash (a `BcryptHash`,
never the plaintext string), answering 201 with a user summary and the
session cookie. -/
theorem C8_signup_validation (env : Env) (db : DB) (now : Time)
    (newId : Id) (salt : Nat) :
    (∀ req : SignupReq,
      truthy req.fullName = false ∨ truthy req.email = false ∨
        truthy req.password = false →
      signupPOST env db req now newId salt =
        ⟨400, "All fields are required", db, none, none⟩) ∧
    (∀ (req : SignupReq) (fullName email password : String),
      req.fullName = some fullName → req.email = some email →
      req.password = some password →
      fullName ≠ "" → email ≠ "" → password ≠ "" →
      emailRegexTest email = false →
      signupPOST env db req now newId salt =
        ⟨400, "Invalid email format", db, none, none⟩) ∧
    (∀ (req : SignupReq) (fullName email password : String),
      req.fullName = some fullName → req.email = some email →
      req.password = some password →
      fullName ≠ "" → email ≠ "" → password ≠ "" →
      emailRegexTest email = true → password.length < 8 →
      signupPOST env db req now newId salt =
        ⟨400, "Password must be at least 8 characters long", db, none, none⟩) ∧
    (∀ (req : SignupReq) (fullName email password : String) (u : StoredUser),
      req.fullName = some fullName → req.email = some email →
      req.password = some password →
      fullName ≠ "" → email ≠ "" → password ≠ "" →
      emailRegexTest email = true → ¬ password.length < 8 →
      db.users.find? (fun v => decide (v.email = jsToLower email)) = some u →
      signupPOST env db req now newId salt =
        ⟨409, "User with this email already exists", db, none, none⟩) ∧
    (∀ (req : SignupReq) (fullName email password : String) (secret : String),
      env.jwtSecret = some secret →
      req.fullName = some fullName → req.email = some email →
      req.password = some password →
      fullName ≠ "" → email ≠ "" → password ≠ "" →
      emailRegexTest email = true → ¬ password.length < 8 →
      db.users.find? (fun v => decide (v.email = jsToLower email)) = none →
      signupPOST env db req now newId salt =
        ⟨201, "User created successfully",
          { db with users := db.users ++
              [⟨newId, fullName, jsToLower email, bcryptHash salt password, now⟩] },
          some ⟨newId, fullName, jsToLower email⟩,
          some ⟨"token",
            Jwt.signed secret ⟨⟨newId, fullName, jsToLower email⟩, now + 86400000⟩,
            signupCookieOptions env.production⟩⟩) := by
  refine ⟨?_, ?_, ?_, ?_, ?_⟩
  · intro req hmiss
    rcases hmiss with h | h | h <;> simp [signupPOST, h]
  · intro req fullName email password hfn hem hpw h1 h2 h3 hre
    simp [signupPOST, truthy, hfn, hem, hpw, h1, h2, h3, hre]
  · intro req fullName email password hfn hem hpw h1 h2 h3 hre hlen
    simp [signupPOST, truthy, hfn, hem, hpw, h1, h2, h3, hre, hlen]
  · intro req fullName email password u hfn hem hpw h1 h2 h3 hre hlen hfind
    simp [signupPOST, truthy, hfn, hem, hpw, h1, h2, h3, hre, hlen, hfind]
  · intro req fullName email password secret hsec hfn hem hpw h1 h2 h3 hre hlen hfind
    simp [signupPOST, truthy, hfn, hem, hpw, h1, h2, h3, hre, hlen, hfind, hsec]

/-- C8 witness: all five branches at concrete requests — missing field,
malformed email, short password, duplicate email, and a successful
creation. -/
theorem C8_signup_validation_witness :
    signupPOST sampleEnv ⟨[sampleUserRec], [], []⟩
        ⟨some "Ann", none, some "password1"⟩ 0 2 11 =
      ⟨400, "All fields are required", ⟨[sampleUserRec], [], []⟩, none, none⟩ ∧
    signupPOST sampleEnv ⟨[sampleUserRec], [], []⟩
        ⟨some "Bob", some "not-an-email", some "password1"⟩ 0 2 11 =
      ⟨400, "Invalid email format", ⟨[sampleUserRec], [], []⟩, none, none⟩ ∧
    signupPOST sampleEnv ⟨[sampleUserRec], [], []⟩
        ⟨some "Bob", some "bob@x.com", some "short"⟩ 0 2 11 =
      ⟨400, "Password must be at least 8 characters long",
        ⟨[sampleUserRec], [], []⟩, none, none⟩ ∧
    signupPOST sampleEnv ⟨[sampleUserRec], [], []⟩
        ⟨some "Bob", some "Ann@x.com", some "password2"⟩ 0 2 11 =
      ⟨409, "User with this email already exists",
        ⟨[sampleUserRec], [], []⟩, none, none⟩ ∧
    signupPOST sampleEnv ⟨[sampleUserRec], [], []⟩
        ⟨some "Bob", some "Bob@x.com", some "password2"⟩ 0 2 11 =
      ⟨201, "User created successfully",
        { users := [sampleUserRec,
            ⟨2, "Bob", jsToLower "Bob@x.com", bcryptHash 11 "password2", 0⟩],
          conversations := [], messages := [] },
        some ⟨2, "Bob", jsToLower "Bob@x.com"⟩,
        some ⟨"token",
          Jwt.signed "secret" ⟨⟨2, "Bob", jsToLower "Bob@x.com"⟩, 0 + 86400000⟩,
          signupCookieOptions sampleEnv.production⟩⟩ := by
  have h := C8_signup_validation sampleEnv ⟨[sampleUserRec], [], []⟩ 0 2 11
  refine ⟨h.1 ⟨some "Ann", none, some "password1"⟩ (by decide),
    h.2.1 ⟨some "Bob", some "not-an-email", some "password1"⟩
      "Bob" "not-an-email" "password1" rfl rfl rfl
      (by decide) (by decide) (by decide) (by decide),
    h.2.2.1 ⟨some "Bob", some "bob@x.com", some "short"⟩
      "Bob" "bob@x.com" "short" rfl rfl rfl
      (by decide) (by decide) (by decide) (by decide) (by decide),
    h.2.2.2.1 ⟨some "Bob", some "Ann@x.com", some "password2"⟩
      "Bob" "Ann@x.com" "password2" sampleUserRec rfl rfl rfl
      (by decide) (by decide) (by decide) (by decide) (by decide) (by decide),
    ?_⟩
  have h5 := h.2.2.2.2 ⟨some "Bob", some "Bob@x.com", some "password2"⟩
    "Bob" "Bob@x.com" "password2" "secret" rfl rfl rfl rfl
    (by decide) (by decide) (by decide) (by decide) (by decide) (by decide)
  exact h5

-- ===============================
-- C9: dashboard mean inter-message gap
-- ===============================

/-- The sum of consecutive creation-time differences telescopes to
last-minus-first. -/
theorem consecDiffSum_eq (l : List Message) : ∀ (a b : Message),
    l.head? = some a → l.getLast? = some b →
    consecDiffSum l = (b.createdAt : Int) - (a.createdAt : Int) := by
  induction l with
  | nil => intro a b ha _; simp at ha
  | cons x xs ih =>
    intro a b ha hb
    rw [List.head?_cons, Option.some_inj] at ha
    subst ha
    cases xs with
    | nil =>
      simp only [List.getLast?_singleton, Option.some_inj] at hb
      subst hb
      simp [consecDiffSum]
    | cons y ys =>
      rw [List.getLast?_cons_cons] at hb
      have hrec := ih y b rfl hb
      rw [consecDiffSum, hrec]
      ring

/-- C9: the dashboard's average response time is computed only over
messages of the caller's conversations, ordered by creation time; it is
0 when there are at most one such message, and otherwise equals the
arithmetic mean of the consecutive creation-time differences — which
telescopes to (last − first)/(n − 1) — converted to minutes (divide by
60000) and rounded à la `Math.round`. -/
theorem C9_avg_gap (db : DB) (uid : Id) :
    dashboardMessagesSorted db uid = sortAscBy Message.createdAt
      (db.messages.filter (fun m =>
        (userConversationIds db uid).contains m.conversation)) ∧
    ((dashboardMessagesSorted db uid).length ≤ 1 →
      dashboardAvgResponseTime db uid = 0) ∧
    (∀ a b : Message, (dashboardMessagesSorted db uid).head? = some a →
      (dashboardMessagesSorted db uid).getLast? = some b →
      1 < (dashboardMessagesSorted db uid).length →
      (consecDiffSum (dashboardMessagesSorted db uid) : ℚ) =
        (b.createdAt : ℚ) - (a.createdAt : ℚ) ∧
      dashboardAvgResponseTime db uid =
        jsRound ((((b.createdAt : ℚ) - (a.createdAt : ℚ)) /
          (((dashboardMessagesSorted db uid).length : ℚ) - 1)) / 60000)) := by
  refine ⟨rfl, ?_, ?_⟩
  · intro h
    have hn : ¬ 1 < (dashboardMessagesSorted db uid).length := Nat.not_lt.mpr h
    simp [dashboardAvgResponseTime, hn]
  · intro a b ha hb hlen
    have htel := consecDiffSum_eq (dashboardMessagesSorted db uid) a b ha hb
    have hq : (consecDiffSum (dashboardMessagesSorted db uid) : ℚ) =
        (b.createdAt : ℚ) - (a.createdAt : ℚ) := by
      rw [htel]; push_cast; ring
    refine ⟨hq, ?_⟩
    simp only [dashboardAvgResponseTime, if_pos hlen]
    rw [hq]

/-- C9 witness: the gap theorem at a concrete store — two messages at
1000 ms and 2000 ms give mean gap 1000 ms, i.e. `Math.round(1/60)` = 0
minutes. -/
theorem C9_avg_gap_witness :
    (consecDiffSum (dashboardMessagesSorted sampleDB 1) : ℚ) =
      ((sampleMsg 101 2000).createdAt : ℚ) - ((sampleMsg 100 1000).createdAt : ℚ) ∧
    dashboardAvgResponseTime sampleDB 1 =
      jsRound (((((sampleMsg 101 2000).createdAt : ℚ) -
        ((sampleMsg 100 1000).createdAt : ℚ)) /
        (((dashboardMessagesSorted sampleDB 1).length : ℚ) - 1)) / 60000) :=
  (C9_avg_gap sampleDB 1).2.2 (sampleMsg 100 1000) (sampleMsg 101 2000)
    (by decide) (by decide) (by decide)

-- ===============================
-- C5: weekly histogram bucketing
-- ===============================

theorem list_set_of_get? (l : List DayBucket) : ∀ (i : Nat) (b : DayBucket),
    l.get? i = some b → l.set i b = l := by
  induction l with
  | nil => intro i b h; simp at h
  | cons x xs ih =>
    intro i b h
    cases i with
    | zero =>
      rw [List.get?_cons_zero, Option.some_inj] at h
      rw [List.set_cons_zero, h]
    | succ n =>
      rw [List.get?_cons_succ] at h
      rw [List.set_cons_succ, ih n b h]

/-- Every slot of the pre-zeroed output (and the out-of-range default)
has value 0. -/
theorem initOutput_getD_value (i : Nat) :
    (initOutput.getD i ⟨"", 0⟩).value = 0 := by
  rcases i with _ | _ | _ | _ | _ | _ | _ | i <;> rfl

/-- Applying an aggregation row whose count is 0 at a slot currently
holding value 0 leaves the output unchanged. -/
theorem applyRawItem_zero (out : List DayBucket) (d : Nat) (i : Nat)
    (hmi : mongoToIndex d = some i)
    (hz : (out.getD i ⟨"", 0⟩).value = 0) :
    applyRawItem out (d, 0) = out := by
  rw [applyRawItem]
  simp only [hmi]
  by_cases hlt : i < out.length
  · have hget : out.get? i = some (out.getD i ⟨"", 0⟩) := by
      rw [List.getD_eq_getD_get?]
      rcases List.get?_eq_some.mpr ⟨hlt, rfl⟩ with h
      cases hh : out.get? i with
      | none => rw [List.get?_eq_none] at hh; omega
      | some b => simp [hh]
    have : (⟨(out.getD i ⟨"", 0⟩).day, 0⟩ : DayBucket) = out.getD i ⟨"", 0⟩ := by
      cases hgd : out.getD i ⟨"", 0⟩ with
      | mk day value =>
        have : value = 0 := by rw [hgd] at hz; exact hz
        simp [this]
    rw [this]
    exact list_set_of_get? out i _ hget
  · exact List.set_eq_of_length_le (Nat.le_of_not_lt hlt)

/-- Applying a row that targets a different slot (or no slot) does not
change a slot's content. -/
theorem applyRawItem_getD_ne (out : List DayBucket) (q : Nat × Nat) (i : Nat)
    (h : ∀ j, mongoToIndex q.1 = some j → j ≠ i) :
    (applyRawItem out q).getD i ⟨"", 0⟩ = out.getD i ⟨"", 0⟩ := by
  rw [applyRawItem]
  cases hmi : mongoToIndex q.1 with
  | none => rfl
  | some j =>
    have hne : j ≠ i := h j hmi
    rw [List.getD_eq_getD_get?, List.getD_eq_getD_get?, List.get?_set_ne _ _ hne]

/-- Folding the zero-count-filtered aggregation rows over an output
whose targeted slots are all still 0 gives the same result as folding
all rows: dropping a zero row is a no-op, so Mongo's omission of empty
buckets does not change the histogram. -/
theorem foldl_applyRawItem_filter (L : List (Nat × Nat)) : ∀ out : List DayBucket,
    (∀ p ∈ L, ∀ i, mongoToIndex p.1 = some i → (out.getD i ⟨"", 0⟩).value = 0) →
    ((L.map (fun p => mongoToIndex p.1)).Pairwise (· ≠ ·)) →
    (L.filter (fun p => decide (p.2 ≠ 0))).foldl applyRawItem out =
      L.foldl applyRawItem out := by
  induction L with
  | nil => intro out _ _; rfl
  | cons q L' ih =>
    intro out hzero hdist
    rw [List.map_cons, List.pairwise_cons] at hdist
    by_cases hq : q.2 = 0
    · have hqeq : q = (q.1, 0) := by
        cases q with
        | mk a b => simp at hq; simp [hq]
      have hid : applyRawItem out q = out := by
        cases hmi : mongoToIndex q.1 with
        | none => rw [applyRawItem, hmi]
        | some i =>
          rw [hqeq]
          exact applyRawItem_zero out q.1 i hmi
            (hzero q (List.mem_cons_self q L') i hmi)
      have hfq : (q :: L').filter (fun p => decide (p.2 ≠ 0)) =
          L'.filter (fun p => decide (p.2 ≠ 0)) := by
        simp [List.filter_cons, hq]
      rw [hfq, List.foldl_cons, hid]
      exact ih out (fun p hp i hmi => hzero p (List.mem_cons_of_mem q hp) i hmi)
        hdist.2
    · have hfq : (q :: L').filter (fun p => decide (p.2 ≠ 0)) =
          q :: L'.filter (fun p => decide (p.2 ≠ 0)) := by
        simp [List.filter_cons, hq]
      rw [hfq, List.foldl_cons, List.foldl_cons]
      refine ih (applyRawItem out q) ?_ hdist.2
      intro p hp i hmi
      have hne : ∀ j, mongoToIndex q.1 = some j → j ≠ i := by
        intro j hj hji
        have := hdist.1 (mongoToIndex p.1) (List.mem_map_of_mem _ hp)
        rw [hj, hmi, hji] at this
        exact this rfl
      rw [applyRawItem_getD_ne out q i hne]
      exact hzero p (List.mem_cons_of_mem q hp) i hmi

/-- C5: for every caller and instant, the weekly histogram is exactly
the 7-entry Monday→Sunday array whose slot for each calendar weekday
holds the number of the caller's conversations created in the trailing
7 days on that weekday (Mongo's 1=Sunday..7=Saturday numbering remapped
by `mongoToIndex`), with value 0 — not an omitted entry — for weekdays
without activity. -/
theorem C5_weekly_histogram (db : DB) (uid : Id) (now : Time) :
    weeklyData db uid now =
      [⟨"Mon", wkMatches db uid now 2⟩, ⟨"Tue", wkMatches db uid now 3⟩,
       ⟨"Wed", wkMatches db uid now 4⟩, ⟨"Thu", wkMatches db uid now 5⟩,
       ⟨"Fri", wkMatches db uid now 6⟩, ⟨"Sat", wkMatches db uid now 7⟩,
       ⟨"Sun", wkMatches db uid now 1⟩] ∧
    (weeklyData db uid now).length = 7 := by
  have hraw : weeklyDataRaw db uid now =
      ([(1, wkMatches db uid now 1), (2, wkMatches db uid now 2),
        (3, wkMatches db uid now 3), (4, wkMatches db uid now 4),
        (5, wkMatches db uid now 5), (6, wkMatches db uid now 6),
        (7, wkMatches db uid now 7)]).filter (fun p => decide (p.2 ≠ 0)) := rfl
  have hmain : weeklyData db uid now =
      [⟨"Mon", wkMatches db uid now 2⟩, ⟨"Tue", wkMatches db uid now 3⟩,
       ⟨"Wed", wkMatches db uid now 4⟩, ⟨"Thu", wkMatches db uid now 5⟩,
       ⟨"Fri", wkMatches db uid now 6⟩, ⟨"Sat", wkMatches db uid now 7⟩,
       ⟨"Sun", wkMatches db uid now 1⟩] := by
    rw [weeklyData, hraw,
      foldl_applyRawItem_filter _ initOutput
        (fun p _ i hmi => initOutput_getD_value i)
        (by simp [mongoToIndex])]
    rfl
  exact ⟨hmain, by rw [hmain]; rfl⟩

-- ===============================
-- C4: message paging
-- ===============================

theorem cursorOk_none_eq : cursorOk none = fun _ : Message => true := rfl

theorem cursorOk_some_eq (c : Time) :
    cursorOk (some c) = fun m : Message => decide (m.createdAt < c) := rfl

/-- The GET query's combined filter is the conversation filter followed
by the cursor filter. -/
theorem convMsgs_filter (db : DB) (cid : Id) (cursor : Option Time) :
    db.messages.filter
        (fun m => decide (m.conversation = cid) && cursorOk cursor m) =
      (convMsgs db cid).filter (cursorOk cursor) := by
  rw [convMsgs, List.filter_filter]
  apply List.filter_congr
  intro m _
  exact Bool.and_comm _ _

/-- Shape of an authenticated, owner-authorized GET /api/messages
response. -/
theorem messagesGET_authorized (env : Env) (db : DB) (cookie : Option Jwt)
    (cid : Id) (now : Time) (user : TokenUser) (convo : Conversation)
    (hgu : getUserFromToken env.jwtSecret cookie now = some user)
    (hconv : findOwnedConversation db cid user.id = some convo)
    (limit : Option Nat) (cursor : Option Time) :
    messagesGET env db ⟨cookie, some cid, limit, cursor⟩ now =
      ⟨200,
        (mongooseLimit (limit.getD 50) (sortDescBy Message.createdAt
          ((convMsgs db cid).filter (cursorOk cursor)))).reverse,
        ((mongooseLimit (limit.getD 50) (sortDescBy Message.createdAt
          ((convMsgs db cid).filter (cursorOk cursor)))).reverse.head?).map
          Message.createdAt⟩ := by
  rw [messagesGET]
  simp only [hgu, hconv, convMsgs_filter]

/-- With pairwise-distinct keys the descending sort is strictly
descending. -/
theorem sortDescBy_pairwise_lt (l : List Message)
    (hne : l.Pairwise (fun a b => a.createdAt ≠ b.createdAt)) :
    (sortDescBy Message.createdAt l).Pairwise
      (fun a b => b.createdAt < a.createdAt) := by
  have h1 := pairwise_sortDescBy Message.createdAt l
  have h2 : (sortDescBy Message.createdAt l).Pairwise
      (fun a b => a.createdAt ≠ b.createdAt) :=
    ((perm_sortDescBy Message.createdAt l).pairwise_iff
      (fun h => Ne.symm h)).mpr hne
  exact (h1.and h2).imp (fun hab => Nat.lt_of_le_of_ne hab.1 (Ne.symm hab.2))

/-- Under pairwise-distinct keys, sorting commutes with filtering (both
sides are the unique strictly-descending arrangement of the filtered
multiset). -/
theorem sortDescBy_filter_comm (l : List Message) (p : Message → Bool)
    (hne : l.Pairwise (fun a b => a.createdAt ≠ b.createdAt)) :
    sortDescBy Message.createdAt (l.filter p) =
      (sortDescBy Message.createdAt l).filter p := by
  haveI : IsAntisymm Message (fun a b => b.createdAt < a.createdAt) :=
    ⟨fun a b h1 h2 => absurd h1 (Nat.lt_asymm h2)⟩
  refine List.eq_of_perm_of_sorted
    (r := fun a b => b.createdAt < a.createdAt) ?_ ?_ ?_
  · exact (perm_sortDescBy _ _).trans
      ((perm_sortDescBy Message.createdAt l).filter p).symm
  · exact sortDescBy_pairwise_lt _ (hne.filter p)
  · exact (sortDescBy_pairwise_lt l hne).filter p

/-- On a strictly descending list, filtering by `createdAt <` the last
element of the first `limit` entries of a suffix drops exactly those
entries: the cursor selects the remainder of the suffix. -/
theorem filter_lt_getLast_take_self :
    ∀ (B : List Message) (limit : Nat) (mlast : Message),
      B.Pairwise (fun a b => b.createdAt < a.createdAt) →
      1 ≤ limit →
      (B.take limit).getLast? = some mlast →
      B.filter (fun m => decide (m.createdAt < mlast.createdAt)) =
        B.drop limit := by
  intro B
  induction B with
  | nil => intro limit mlast _ _ hlast; simp at hlast
  | cons x B' ih =>
    intro limit mlast hpw hlim hlast
    rw [List.pairwise_cons] at hpw
    rcases limit with _ | l
    · omega
    rw [List.take_succ_cons] at hlast
    cases htl : B'.take l with
    | nil =>
      rw [htl] at hlast
      have hx : mlast = x := by
        rw [List.getLast?_singleton, Option.some_inj] at hlast
        exact hlast.symm
      have hxf : decide (x.createdAt < mlast.createdAt) = false := by
        rw [hx, decide_eq_false_iff_not]; exact Nat.lt_irrefl _
      have hB' : B'.filter (fun m => decide (m.createdAt < mlast.createdAt)) = B' := by
        apply List.filter_eq_self.mpr
        intro y hy
        rw [hx]
        simpa using hpw.1 y hy
      rw [List.filter_cons, hxf]
      simp only [Bool.false_eq_true, if_false, hB', List.drop_succ_cons]
      rcases List.take_eq_nil_iff.mp htl with h | h
      · rw [h, List.drop_zero]
      · rw [h, List.filter_nil] at hB'
        rw [h, List.drop_nil, ← hB']
    | cons t ts =>
      rw [htl, List.getLast?_cons_cons] at hlast
      have hmem : mlast ∈ B' := by
        have h1 : mlast ∈ t :: ts := List.mem_of_mem_getLast? hlast
        rw [← htl] at h1
        exact List.take_subset l B' h1
      have hlt : mlast.createdAt < x.createdAt := hpw.1 mlast hmem
      have hxf : decide (x.createdAt < mlast.createdAt) = false := by
        rw [decide_eq_false_iff_not]; exact Nat.lt_asymm hlt
      have hl1 : 1 ≤ l := by
        rcases Nat.eq_zero_or_pos l with h | h
        · rw [h, List.take_zero] at htl; exact absurd htl (by simp)
        · exact h
      have hrec := ih l mlast hpw.2 hl1 (by rw [htl]; exact hlast)
      rw [List.filter_cons, hxf]
      simp only [Bool.false_eq_true, if_false, hrec, List.drop_succ_cons]

/-- Specialization of the cursor-selection fact to a suffix `B` of the
full strictly-descending list `A ++ B`: entries of `A` are all newer
than the cursor, so the filter still selects exactly `B.drop limit`. -/
theorem filter_lt_getLast_take :
    ∀ (A B : List Message) (limit : Nat) (mlast : Message),
      (A ++ B).Pairwise (fun a b => b.createdAt < a.createdAt) →
      1 ≤ limit →
      (B.take limit).getLast? = some mlast →
      (A ++ B).filter (fun m => decide (m.createdAt < mlast.createdAt)) =
        B.drop limit := by
  intro A
  induction A with
  | nil =>
    intro B limit mlast hpw hlim hlast
    simpa using
      filter_lt_getLast_take_self B limit mlast (by simpa using hpw) hlim hlast
  | cons a A' ih =>
    intro B limit mlast hpw hlim hlast
    rw [List.cons_append, List.pairwise_cons] at hpw
    have hmem : mlast ∈ A' ++ B := by
      have h1 := List.mem_of_mem_getLast? hlast
      exact List.mem_append_right A' (List.take_subset limit B h1)
    have hlt : mlast.createdAt < a.createdAt := hpw.1 mlast hmem
    have haf : decide (a.createdAt < mlast.createdAt) = false := by
      rw [decide_eq_false_iff_not]; exact Nat.lt_asymm hlt
    rw [List.cons_append, List.filter_cons, haf]
    simp only [Bool.false_eq_true, if_false]
    exact ih B limit mlast hpw.2 hlim hlast

/-- The paging loop retrieves exactly the currently selected suffix `B`
of the sorted message list, oldest-to-newest. -/
theorem pageChain_covers (env : Env) (db : DB) (cookie : Option Jwt)
    (cid : Id) (now : Time) (user : TokenUser) (convo : Conversation)
    (limit : Nat)
    (hgu : getUserFromToken env.jwtSecret cookie now = some user)
    (hconv : findOwnedConversation db cid user.id = some convo)
    (hlim : 1 ≤ limit)
    (hne : (convMsgs db cid).Pairwise (fun a b => a.createdAt ≠ b.createdAt)) :
    ∀ (fuel : Nat) (B : List Message) (cursor : Option Time),
      sortDescBy Message.createdAt ((convMsgs db cid).filter (cursorOk cursor)) = B →
      (∃ A, sortDescBy Message.createdAt (convMsgs db cid) = A ++ B) →
      B.length ≤ fuel →
      pageChain env db cookie cid limit now fuel cursor = B.reverse := by
  intro fuel
  induction fuel with
  | zero =>
    intro B cursor _ _ hlen
    have hB : B = [] := List.eq_nil_of_length_eq_zero (Nat.le_zero.mp hlen)
    rw [hB]
    rfl
  | succ fuel ih =>
    intro B cursor hsel hsuf hlen
    have hlim0 : ¬ limit = 0 := by omega
    have hget := messagesGET_authorized env db cookie cid now user convo
      hgu hconv (some limit) cursor
    rw [pageChain, hget]
    simp only [Option.getD_some, hsel, mongooseLimit, hlim0, if_false]
    cases B with
    | nil =>
      simp
    | cons b B' =>
      obtain ⟨mlast, hlast⟩ : ∃ m, ((b :: B').take limit).getLast? = some m := by
        rcases limit with _ | l
        · omega
        · rw [List.take_succ_cons]
          exact ⟨_, List.getLast?_eq_getLast_of_ne_nil (List.cons_ne_nil _ _)⟩
      have hhead : ((b :: B').take limit).reverse.head? = some mlast := by
        rw [List.head?_reverse]; exact hlast
      rw [hhead]
      simp only [Option.map_some']
      have hstrict : ∀ A, sortDescBy Message.createdAt (convMsgs db cid) = A ++ (b :: B') →
          (A ++ (b :: B')).Pairwise (fun a b => b.createdAt < a.createdAt) := by
        intro A hA
        rw [← hA]
        exact sortDescBy_pairwise_lt _ hne
      obtain ⟨A, hA⟩ := hsuf
      have hsel2 : sortDescBy Message.createdAt
          ((convMsgs db cid).filter (cursorOk (some mlast.createdAt))) =
          (b :: B').drop limit := by
        rw [cursorOk_some_eq, sortDescBy_filter_comm _ _ hne, hA]
        exact filter_lt_getLast_take A (b :: B') limit mlast
          (hstrict A hA) hlim hlast
      have hsuf2 : ∃ A2, sortDescBy Message.createdAt (convMsgs db cid) =
          A2 ++ (b :: B').drop limit :=
        ⟨A ++ (b :: B').take limit,
          by rw [hA, List.append_assoc, List.take_append_drop]⟩
      have hlen2 : ((b :: B').drop limit).length ≤ fuel := by
        rw [List.length_drop]
        have h1 : (b :: B').length ≤ fuel + 1 := hlen
        omega
      rw [ih ((b :: B').drop limit) (some mlast.createdAt) hsel2 hsuf2 hlen2,
        ← List.reverse_append, List.take_append_drop]

/-- C4 (amended): for every authenticated, owner-authorized GET, the
page is oldest-first and `nextCursor` is the `createdAt` of the oldest
returned message, being null exactly when the returned page is empty
(an exhausted but non-empty final page still carries a cursor); and
provided the conversation's messages have pairwise-distinct creation
timestamps and the page size is at least 1, paging through successive
cursors with no intervening writes concatenates — older pages first —
to exactly the single unpaged fetch, deterministically, with no overlap
and no gap. -/
theorem C4_message_paging (env : Env) (db : DB) (cookie : Option Jwt)
    (cid : Id) (now : Time) (user : TokenUser) (convo : Conversation)
    (hgu : getUserFromToken env.jwtSecret cookie now = some user)
    (hconv : findOwnedConversation db cid user.id = some convo) :
    (∀ (limit : Option Nat) (cursor : Option Time),
      (messagesGET env db ⟨cookie, some cid, limit, cursor⟩ now).status = 200 ∧
      (messagesGET env db ⟨cookie, some cid, limit, cursor⟩ now).data.Pairwise
        (fun a b => a.createdAt ≤ b.createdAt) ∧
      (messagesGET env db ⟨cookie, some cid, limit, cursor⟩ now).nextCursor =
        ((messagesGET env db ⟨cookie, some cid, limit, cursor⟩ now).data.head?).map
          Message.createdAt ∧
      ((messagesGET env db ⟨cookie, some cid, limit, cursor⟩ now).nextCursor = none ↔
        (messagesGET env db ⟨cookie, some cid, limit, cursor⟩ now).data = [])) ∧
    (∀ (limit fuel : Nat), 1 ≤ limit →
      (convMsgs db cid).Pairwise (fun a b => a.createdAt ≠ b.createdAt) →
      (convMsgs db cid).length ≤ fuel →
      pageChain env db cookie cid limit now fuel none =
        (messagesGET env db ⟨cookie, some cid, some 0, none⟩ now).data) := by
  constructor
  · intro limit cursor
    have hget := messagesGET_authorized env db cookie cid now user convo
      hgu hconv limit cursor
    refine ⟨by rw [hget], ?_, by rw [hget], ?_⟩
    · rw [hget]
      apply List.pairwise_reverse.mpr
      have hpw := pairwise_sortDescBy Message.createdAt
        ((convMsgs db cid).filter (cursorOk cursor))
      rw [mongooseLimit]
      by_cases h0 : limit.getD 50 = 0
      · rw [if_pos h0]; exact hpw
      · rw [if_neg h0]
        exact hpw.sublist (List.take_sublist _ _)
    · rw [hget]
      generalize (mongooseLimit (limit.getD 50) (sortDescBy Message.createdAt
        ((convMsgs db cid).filter (cursorOk cursor)))).reverse = L
      cases L <;> simp
  · intro limit fuel hlim hne hfuel
    have hwalk := pageChain_covers env db cookie cid now user convo limit
      hgu hconv hlim hne fuel (sortDescBy Message.createdAt (convMsgs db cid))
      none ?_ ?_ ?_
    · rw [hwalk, messagesGET_authorized env db cookie cid now user convo
        hgu hconv (some 0) none]
      simp [mongooseLimit, cursorOk_none_eq, List.filter_true]
    · rw [cursorOk_none_eq, List.filter_true]
    · exact ⟨[], rfl⟩
    · rw [(perm_sortDescBy Message.createdAt (convMsgs db cid)).length_eq]
      exact hfuel

/-- C4 witness: the paging theorem at a concrete store (two messages
with distinct timestamps, page size 1): walking the cursors returns the
same list as the unpaged fetch. -/
theorem C4_message_paging_witness :
    pageChain sampleEnv sampleDB (some sampleToken) 10 1 3000 2 none =
      (messagesGET sampleEnv sampleDB
        ⟨some sampleToken, some 10, some 0, none⟩ 3000).data :=
  (C4_message_paging sampleEnv sampleDB (some sampleToken) 10 3000
      ⟨1, "Ann", "ann@x.com"⟩ sampleConv (by decide) (by decide)).2
    1 2 (by decide) (by decide) (by decide)

/-- C4 counterexample: (a) a single fetch that exhausts the
conversation (both messages returned) still reports a non-null
`nextCursor` — the cursor is null exactly when the returned page is
empty, not when the result set is exhausted; (b) with two messages
sharing one `createdAt` and page size 1, walking the cursors skips one
message, so the paged sequence differs from the unpaged fetch. -/
theorem C4_counterexample :
    ((messagesGET sampleEnv sampleDB
        ⟨some sampleToken, some 10, some 50, none⟩ 3000).data.length = 2 ∧
      (messagesGET sampleEnv sampleDB
        ⟨some sampleToken, some 10, some 50, none⟩ 3000).nextCursor ≠ none ∧
      (messagesGET sampleEnv sampleDB
        ⟨some sampleToken, some 10, some 50,
          (messagesGET sampleEnv sampleDB
            ⟨some sampleToken, some 10, some 50, none⟩ 3000).nextCursor⟩
        3000).data = []) ∧
    pageChain sampleEnv sampleDBdup (some sampleToken) 10 1 3000 5 none ≠
      (messagesGET sampleEnv sampleDBdup
        ⟨some sampleToken, some 10, some 0, none⟩ 3000).data := by
  refine ⟨⟨by decide, by decide, by decide⟩, by decide⟩

end Chat
